import Mathlib

/-!
Verification of the NandScript pipeline (src/main.rs) against its
specification.  The Rust source is shallowly embedded below:

- Rust HashMap<String, u8> is modelled as an association list SMap with
  insert replacing an existing key in place and appending new keys.  All
  u8 arithmetic is modelled on Nat: bitwise AND is Nat.land, bitwise NOT
  of a u8 value x is 255 - x % 256.
- Every Rust panic (panic!, unwrap on None, todo!) is modelled as the
  value none of an Option-returning function.
- The recursive functions parse_expressions and ChipEvaluator::eval can
  diverge on adversarial inputs (cyclic chip libraries), so the embedding
  threads an explicit fuel counter; fuel 0 also yields none.  Every claim
  instance below is settled at a fuel large enough that the fuel bound is
  never the reason for a none.
-/

/-! ## String-keyed bit maps (Rust HashMap<String, u8>)

Rust HashMap insertion replaces the value of an existing key; the model
keeps keys in insertion order.  NOTE: iteration order of a real Rust
HashMap is unspecified (randomized per map); the model fixes it to
insertion order.  The one place this matters, get_first_output on a map
with two or more keys, is discussed at claim C3.
-/

abbrev SMap := List (String × Nat)

def SMap.get? : SMap → String → Option Nat
  | [], _ => none
  | (k', v') :: rest, k => if k' = k then some v' else SMap.get? rest k

def SMap.getD (m : SMap) (k : String) (d : Nat) : Nat :=
  (m.get? k).getD d

def SMap.insert : SMap → String → Nat → SMap
  | [], k, v => [(k, v)]
  | (k', v') :: rest, k, v =>
    if k' = k then (k, v) :: rest else (k', v') :: SMap.insert rest k v

def SMap.keys (m : SMap) : List String := m.map Prod.fst

/-! ## Token (enum Token in main.rs)

Constructor names follow the source where this development can; the two
exceptions take the specification's names for the same variants: the
source's two-field chip-output variant is rendered ChipOutputRef and the
named-binding variant is rendered IOBinding.
-/

inductive Token where
  | Chip : String → Token
  | ChipOutputRef : String → String → Token
  | Input : String → Token
  | IOBinding : String → String → Token
  | Output : String → Token
  | True : Token
  | False : Token
  | Assign : Token
  | LParen : Token
  | RParen : Token
  | Comma : Token
  | Expression : List Token → Token

/-! ## Scanner (fn tokenize)

Faithful to the source: whitespace characters are skipped with a bare
continue, so they neither enter the current word nor flush it; only the
four special characters flush the accumulated word (and are emitted as
one-character words themselves); the word built so far becomes a comment
starter only when it is exactly the two characters //.
-/

def tokenizeGo : List Char → List String → String → Bool → List String
  | [], result, currentWord, _ =>
    if currentWord.length > 0 then result ++ [currentWord] else result
  | c :: cs, result, currentWord, isComment =>
    if isComment then
      if c = '\n' then tokenizeGo cs result currentWord false
      else tokenizeGo cs result currentWord true
    else if c.isWhitespace then
      tokenizeGo cs result currentWord isComment
    else if c = '(' ∨ c = ')' ∨ c = '=' ∨ c = ',' then
      tokenizeGo cs
        ((if currentWord.length > 0 then result ++ [currentWord] else result)
          ++ [String.mk [c]])
        ("") isComment
    else
      let w := currentWord.push c
      if w = ("//") then tokenizeGo cs result ("") true
      else tokenizeGo cs result w isComment

def tokenize (code : String) : List String :=
  tokenizeGo code.data [] ("") false

/-! ## Structural Lexer (fn lex)

State: hasOutput, assigning, parenCount (an i32 in the source, so an Int
here: it may go negative).  Every panic! in the source is a none here.
On an open parenthesis the source first panics unless the previously
emitted token is an Input, then pops that Input and pushes Chip and
LParen in its place and increments the depth counter.
The Rust word tests use to_lowercase / to_ascii_lowercase; the claims only
exercise ASCII words, for which String.toLower agrees with both.
-/

def lexGo : List String → List Token → Bool → Bool → Int → Option (List Token)
  | [], result, _, _, _ => some result
  | tok :: rest, result, hasOutput, assigning, parenCount =>
    if !hasOutput then
      if tok = ("(") ∨ tok = (")") ∨ tok = (",") then none
      else lexGo rest (result ++ [Token.Output tok]) true assigning parenCount
    else if !assigning then
      if tok ≠ ("=") then none
      else lexGo rest (result ++ [Token.Assign]) hasOutput true parenCount
    else if tok = (")") then
      if parenCount - 1 = 0 then
        lexGo rest (result ++ [Token.RParen]) false false (parenCount - 1)
      else
        lexGo rest (result ++ [Token.RParen]) hasOutput assigning (parenCount - 1)
    else if tok = ("(") then
      match result.getLast? with
      | none => none
      | some last =>
        match last with
        | Token.Input x =>
          lexGo rest (result.dropLast ++ [Token.Chip x, Token.LParen])
            hasOutput assigning (parenCount + 1)
        | _ => none
    else if tok = (",") then
      lexGo rest (result ++ [Token.Comma]) hasOutput assigning parenCount
    else if tok.toLower = ("true") ∨ tok = ("1") then
      lexGo rest (result ++ [Token.True]) hasOutput assigning parenCount
    else if tok.toLower = ("false") ∨ tok = ("0") then
      lexGo rest (result ++ [Token.False]) hasOutput assigning parenCount
    else
      lexGo rest (result ++ [Token.Input tok]) hasOutput assigning parenCount

def lex (tokens : List String) : Option (List Token) :=
  lexGo tokens [] false false 0

/-! ## Expression Grouper (fn parse_expressions)

The single-token base case returns early only for Input (splitting on the
colon, where the source unwraps the second piece: a panic, hence none,
when the name has no colon), True, False and Expression; every other
single token falls through to the general code, exactly as the source's
match with empty arms does.  The general code walks all tokens (the head
included) tracking p_count; peLoop is that loop, taking the recursive
occurrence of parse_expressions as the parameter parseSub, so that the
top-level parse_expressions only has to thread a fuel counter through the
nesting depth (the source recursion is bounded by parenthesis nesting;
fuel 0 yields none and every claim below uses ample fuel).
-/

def splitColonGo : List Char → String → List String
  | [], current => [current]
  | c :: cs, current =>
    if c = ':' then current :: splitColonGo cs ("")
    else splitColonGo cs (current.push c)

/-- splitColon models Rust str::split over the separator colon: the pieces
between colons in order, one piece (possibly empty) more than there are
colons, so a colon-free string yields exactly one piece. -/
def splitColon (x : String) : List String :=
  splitColonGo x.data ("")

/-- splitIOPair is the Input arm of the single-token base case and of the
final one-element collapse of parse_expressions: the source unwraps piece
zero and piece one of x.split, a panic, hence none, when x has no
colon. -/
def splitIOPair (x : String) : Option Token :=
  match splitColon x with
  | p0 :: p1 :: _ => some (Token.IOBinding p0 p1)
  | _ => none

def peLoop (parseSub : List Token → Option Token) :
    List Token → List Token → List Token → Int →
    Option (List Token × List Token × Int)
  | [], input_expressions, current_expression, p =>
    some (input_expressions, current_expression, p)
  | tok :: rest, input_expressions, current_expression, p =>
    match tok with
    | Token.LParen =>
      if p + 1 = 1 then peLoop parseSub rest input_expressions [] (p + 1)
      else peLoop parseSub rest input_expressions (current_expression ++ [tok]) (p + 1)
    | Token.RParen =>
      if p - 1 = 0 then
        match parseSub (current_expression ++ [tok]) with
        | none => none
        | some e => peLoop parseSub rest (input_expressions ++ [e]) [] (p - 1)
      else peLoop parseSub rest input_expressions (current_expression ++ [tok]) (p - 1)
    | Token.Comma =>
      if p = 1 then
        match parseSub current_expression with
        | none => none
        | some e => peLoop parseSub rest (input_expressions ++ [e]) [] p
      else if p > 0 then
        peLoop parseSub rest input_expressions (current_expression ++ [tok]) p
      else peLoop parseSub rest input_expressions current_expression p
    | _ =>
      if p > 0 then
        peLoop parseSub rest input_expressions (current_expression ++ [tok]) p
      else peLoop parseSub rest input_expressions current_expression p

def parse_expressions : Nat → List Token → Option Token
  | 0, _ => none
  | f + 1, tokens =>
    match tokens with
    | [Token.Input x] => splitIOPair x
    | [Token.True] => some Token.True
    | [Token.False] => some Token.False
    | [Token.Expression e] => some (Token.Expression e)
    | _ =>
      match tokens with
      | [] => none
      | this_chip :: _ =>
        match peLoop (fun ts => parse_expressions f ts) tokens [this_chip] [] 0 with
        | none => none
        | some (input_expressions, _, _) =>
          match input_expressions with
          | [Token.Input x] => splitIOPair x
          | _ => some (Token.Expression input_expressions)

/-! ## Evaluator (fn get_first_output, fn NAND, ChipEvaluator::eval)

get_first_output reads out.keys().nth(0) of a HashMap and unwraps it (a
panic, hence none, on an empty map), then looks that key up with a
default of 0.  NAND computes the bitwise u8 negation of the bitwise AND
of inputs a and b, both defaulting to 0.
-/

def get_first_output (out : SMap) : Option Nat :=
  match out.keys.head? with
  | none => none
  | some k => some (out.getD k 0)

def nandNot8 (x : Nat) : Nat := 255 - x % 256

def NAND (inputs : SMap) : SMap :=
  SMap.insert [] ("out")
    (nandNot8 (Nat.land (inputs.getD ("a") 0) (inputs.getD ("b") 0)))

def lookupChip : List (String × List Token) → String → Option (List Token)
  | [], _ => none
  | (n, body) :: rest, name => if n = name then some body else lookupChip rest name

/-- stmtInsert records one statement's result: under the pending declared
output name when one is pending (the source then clears that name), else
under the default name out. -/
def stmtInsert (output : SMap) (curName : String) (r : Nat) : SMap :=
  if curName.length > 0 then output.insert curName r else output.insert ("out") r

/-! buildInputs is the argument loop of the Token::Expression arm of
ChipEvaluator::eval: it builds the callee's local input map, with the
synthesized-parameter counter starting at 97 (the letter a, a u8 in the
source, hence the modulus 256) and incremented once per argument token of
any kind.  evalGo is the statement loop of eval, with the running output
map and the pending output-declaration name as explicit state; the two
todo!() arms of the source (a top-level Input or IO token) are none.
Both loops receive the recursive occurrence of eval as the parameter
evalSub; the top-level eval threads a fuel counter through the recursion
depth (unbounded in the source for cyclic chip libraries; fuel 0 yields
none and every claim below uses ample fuel).
-/

def buildInputs (evalSub : List Token → SMap → Option SMap) (inputs : SMap) :
    List Token → SMap → Nat → Option SMap
  | [], e_inputs, _ => some e_inputs
  | input_token :: rest, e_inputs, current_input_param =>
    match input_token with
    | Token.IOBinding x y =>
      buildInputs evalSub inputs rest
        (e_inputs.insert x (inputs.getD y 0)) (current_input_param + 1)
    | Token.Expression i_toks =>
      match evalSub i_toks inputs with
      | none => none
      | some res =>
        match get_first_output res with
        | none => none
        | some r =>
          buildInputs evalSub inputs rest
            (e_inputs.insert (String.mk [Char.ofNat (current_input_param % 256)]) r)
            (current_input_param + 1)
    | _ => buildInputs evalSub inputs rest e_inputs (current_input_param + 1)

def evalGo (evalSub : List Token → SMap → Option SMap)
    (chips : List (String × List Token)) :
    List Token → SMap → SMap → String → Option SMap
  | [], _, output, _ => some output
  | tok :: rest, inputs, output, curName =>
    match tok with
    | Token.Input _ => none
    | Token.IOBinding _ _ => none
    | Token.Output out => evalGo evalSub chips rest inputs output out
    | Token.True => evalGo evalSub chips rest inputs (output.insert ("OUT") 1) curName
    | Token.False => evalGo evalSub chips rest inputs (output.insert ("OUT") 0) curName
    | Token.Expression e_codes =>
      (match e_codes with
      | [] => none
      | e_chip :: e_args =>
        match buildInputs evalSub inputs e_args [] 97 with
        | none => none
        | some e_inputs =>
          match e_chip with
          | Token.Chip chip_name =>
            if chip_name = ("NAND") then
              match get_first_output (NAND e_inputs) with
              | none => none
              | some r => evalGo evalSub chips rest inputs (stmtInsert output curName r) ("")
            else
              match lookupChip chips chip_name with
              | none => none
              | some chip_instructions =>
                match evalSub chip_instructions e_inputs with
                | none => none
                | some res =>
                  match get_first_output res with
                  | none => none
                  | some r => evalGo evalSub chips rest inputs (stmtInsert output curName r) ("")
          | Token.ChipOutputRef chip_name chip_out =>
            if chip_name = ("NAND") then
              evalGo evalSub chips rest inputs
                (stmtInsert output curName (SMap.getD (NAND e_inputs) chip_out 0)) ("")
            else
              match lookupChip chips chip_name with
              | none => none
              | some chip_instructions =>
                match evalSub chip_instructions e_inputs with
                | none => none
                | some res =>
                  match SMap.get? res chip_out with
                  | none => none
                  | some r => evalGo evalSub chips rest inputs (stmtInsert output curName r) ("")
          | _ => evalGo evalSub chips rest inputs output curName)
    | _ => evalGo evalSub chips rest inputs output curName

def eval : Nat → List (String × List Token) → List Token → SMap → Option SMap
  | 0, _, _, _ => none
  | f + 1, chips, code, inputs =>
    evalGo (fun ts inp => eval f chips ts inp) chips code inputs [] ("")

/-! ## Shared helper lemmas -/

/-- agreesD: two maps are interchangeable for every default-0 lookup. -/
def SMap.agreesD (m1 m2 : SMap) : Prop :=
  ∀ k, SMap.getD m1 k 0 = SMap.getD m2 k 0

theorem SMap.getD_insert_zero (m : SMap) (y k : String) (h : SMap.get? m y = none) :
    SMap.getD (SMap.insert m y 0) k 0 = SMap.getD m k 0 := by
  induction m with
  | nil =>
    simp only [SMap.insert, SMap.getD, SMap.get?]
    split <;> rfl
  | cons hd tl ih =>
    obtain ⟨k', v'⟩ := hd
    simp only [SMap.get?] at h
    by_cases hky : k' = y
    · simp [hky] at h
    · rw [if_neg hky] at h
      simp only [SMap.insert, if_neg hky, SMap.getD, SMap.get?]
      by_cases hkk : k' = k
      · simp [hkk]
      · simp only [if_neg hkk]
        exact ih h

theorem SMap.agreesD_insert_zero (m : SMap) (y : String) (h : SMap.get? m y = none) :
    SMap.agreesD (SMap.insert m y 0) m :=
  fun k => SMap.getD_insert_zero m y k h

theorem buildInputs_congr (evalSub : List Token → SMap → Option SMap)
    (i1 i2 : SMap) (hsub : ∀ ts, evalSub ts i1 = evalSub ts i2)
    (h : SMap.agreesD i1 i2) :
    ∀ (args : List Token) (e_inputs : SMap) (p : Nat),
      buildInputs evalSub i1 args e_inputs p = buildInputs evalSub i2 args e_inputs p := by
  intro args
  induction args with
  | nil => intro e p; rfl
  | cons tok rest ih =>
    intro e p
    cases tok with
    | IOBinding x y =>
      simp only [buildInputs]
      rw [h y]
      exact ih _ _
    | Expression i_toks =>
      simp only [buildInputs]
      rw [hsub i_toks]
      cases evalSub i_toks i2 with
      | none => rfl
      | some res =>
        dsimp only
        cases get_first_output res with
        | none => rfl
        | some r => exact ih _ _
    | Chip a => simp only [buildInputs]; exact ih _ _
    | ChipOutputRef a b => simp only [buildInputs]; exact ih _ _
    | Input a => simp only [buildInputs]; exact ih _ _
    | Output a => simp only [buildInputs]; exact ih _ _
    | True => simp only [buildInputs]; exact ih _ _
    | False => simp only [buildInputs]; exact ih _ _
    | Assign => simp only [buildInputs]; exact ih _ _
    | LParen => simp only [buildInputs]; exact ih _ _
    | RParen => simp only [buildInputs]; exact ih _ _
    | Comma => simp only [buildInputs]; exact ih _ _

theorem evalGo_congr (evalSub : List Token → SMap → Option SMap)
    (chips : List (String × List Token))
    (i1 i2 : SMap) (hsub : ∀ ts, evalSub ts i1 = evalSub ts i2)
    (h : SMap.agreesD i1 i2) :
    ∀ (code : List Token) (output : SMap) (curName : String),
      evalGo evalSub chips code i1 output curName
        = evalGo evalSub chips code i2 output curName := by
  intro code
  induction code with
  | nil => intro o c; rfl
  | cons tok rest ih =>
    intro o c
    cases tok with
    | Input a => rfl
    | IOBinding a b => rfl
    | Output out => simp only [evalGo]; exact ih _ _
    | True => simp only [evalGo]; exact ih _ _
    | False => simp only [evalGo]; exact ih _ _
    | Chip a => simp only [evalGo]; exact ih _ _
    | ChipOutputRef a b => simp only [evalGo]; exact ih _ _
    | Assign => simp only [evalGo]; exact ih _ _
    | LParen => simp only [evalGo]; exact ih _ _
    | RParen => simp only [evalGo]; exact ih _ _
    | Comma => simp only [evalGo]; exact ih _ _
    | Expression e_codes =>
      cases e_codes with
      | nil => rfl
      | cons e_chip e_args =>
        simp only [evalGo]
        rw [buildInputs_congr evalSub i1 i2 hsub h e_args [] 97]
        cases buildInputs evalSub i2 e_args [] 97 with
        | none => rfl
        | some e_inputs =>
          dsimp only
          cases e_chip with
          | Chip chip_name =>
            dsimp only
            by_cases hn : chip_name = ("NAND")
            · rw [if_pos hn, if_pos hn]
              cases get_first_output (NAND e_inputs) with
              | none => rfl
              | some r => exact ih _ _
            · rw [if_neg hn, if_neg hn]
              cases lookupChip chips chip_name with
              | none => rfl
              | some instrs =>
                dsimp only
                cases evalSub instrs e_inputs with
                | none => rfl
                | some res =>
                  dsimp only
                  cases get_first_output res with
                  | none => rfl
                  | some r => exact ih _ _
          | ChipOutputRef chip_name chip_out =>
            dsimp only
            by_cases hn : chip_name = ("NAND")
            · rw [if_pos hn, if_pos hn]
              exact ih _ _
            · rw [if_neg hn, if_neg hn]
              cases lookupChip chips chip_name with
              | none => rfl
              | some instrs =>
                dsimp only
                cases evalSub instrs e_inputs with
                | none => rfl
                | some res =>
                  dsimp only
                  cases SMap.get? res chip_out with
                  | none => rfl
                  | some r => exact ih _ _
          | Input a => exact ih _ _
          | IOBinding a b => exact ih _ _
          | Output a => exact ih _ _
          | True => exact ih _ _
          | False => exact ih _ _
          | Assign => exact ih _ _
          | LParen => exact ih _ _
          | RParen => exact ih _ _
          | Comma => exact ih _ _
          | Expression e => exact ih _ _

theorem eval_congr : ∀ (f : Nat) (chips : List (String × List Token))
    (i1 i2 : SMap), SMap.agreesD i1 i2 →
    ∀ code, eval f chips code i1 = eval f chips code i2 := by
  intro f
  induction f with
  | zero => intro chips i1 i2 h code; rfl
  | succ f ih =>
    intro chips i1 i2 h code
    simp only [eval]
    exact evalGo_congr _ chips i1 i2 (fun ts => ih chips i1 i2 h ts) h code [] ("")

/-! ## Claims -/

/-- Claim C1 (counterexample): with inputs a=1 and b=1 the one-statement
body out = NAND(a: a, b: b) does not yield the claimed mapping with out
equal to 0: the source negates bitwise over u8, producing 254. -/
theorem c1_counterexample :
    eval 5 [] [Token.Output ("out"),
        Token.Expression [Token.Chip ("NAND"),
          Token.IOBinding ("a") ("a"), Token.IOBinding ("b") ("b")]]
        [(("a"), 1), (("b"), 1)]
      = some [(("out"), 254)]
    ∧ eval 5 [] [Token.Output ("out"),
        Token.Expression [Token.Chip ("NAND"),
          Token.IOBinding ("a") ("a"), Token.IOBinding ("b") ("b")]]
        [(("a"), 1), (("b"), 1)]
      ≠ some [(("out"), 0)] :=
  ⟨rfl, by decide⟩

/-- Claim C1 (amended): evaluating the one-statement body
out = NAND(a: a, b: b) computes out as the bitwise u8 negation of a AND
b, so single-bit inputs give 8-bit outputs whose low bit is NOT(a AND b):
inputs a=1,b=1 give out=254; a=0,b=0 give out=255; a=1,b=0 give
out=255. -/
theorem c1_nand_primitive_bitwise :
    eval 5 [] [Token.Output ("out"),
        Token.Expression [Token.Chip ("NAND"),
          Token.IOBinding ("a") ("a"), Token.IOBinding ("b") ("b")]]
        [(("a"), 1), (("b"), 1)]
      = some [(("out"), 254)]
    ∧ eval 5 [] [Token.Output ("out"),
        Token.Expression [Token.Chip ("NAND"),
          Token.IOBinding ("a") ("a"), Token.IOBinding ("b") ("b")]]
        [(("a"), 0), (("b"), 0)]
      = some [(("out"), 255)]
    ∧ eval 5 [] [Token.Output ("out"),
        Token.Expression [Token.Chip ("NAND"),
          Token.IOBinding ("a") ("a"), Token.IOBinding ("b") ("b")]]
        [(("a"), 1), (("b"), 0)]
      = some [(("out"), 255)] :=
  ⟨rfl, rfl, rfl⟩

/-- Claim C2 (counterexample): a boolean-literal statement with the
output name x pending writes its bit under the fixed key OUT, not under
x as claimed. -/
theorem c2_counterexample :
    eval 5 [] [Token.Output ("x"), Token.True] [] = some [(("OUT"), 1)]
    ∧ eval 5 [] [Token.Output ("x"), Token.True] [] ≠ some [(("x"), 1)] :=
  ⟨rfl, by decide⟩

/-- Claim C2 (amended): a boolean-literal statement always writes its bit
under the fixed key OUT, whatever output-declaration name is pending, and
leaves the pending name untouched; the pending declared name is never the
target of a literal. -/
theorem c2_literal_always_writes_fixed_key :
    (∀ (evalSub : List Token → SMap → Option SMap)
        (chips : List (String × List Token)) (rest : List Token)
        (inputs output : SMap) (curName : String),
      evalGo evalSub chips (Token.True :: rest) inputs output curName
        = evalGo evalSub chips rest inputs (SMap.insert output ("OUT") 1) curName)
    ∧ (∀ (evalSub : List Token → SMap → Option SMap)
        (chips : List (String × List Token)) (rest : List Token)
        (inputs output : SMap) (curName : String),
      evalGo evalSub chips (Token.False :: rest) inputs output curName
        = evalGo evalSub chips rest inputs (SMap.insert output ("OUT") 0) curName)
    ∧ eval 5 [] [Token.Output ("x"), Token.True] [] = some [(("OUT"), 1)] :=
  ⟨fun _ _ _ _ _ _ => rfl, fun _ _ _ _ _ _ => rfl, rfl⟩

/-- Claim C3 (supporting theorem for the code bug): get_first_output
returns the value of whichever key comes first in the iteration order of
the result map, so on the two orderings of the same two-output result
mapping with out=1 declared first it returns 1 or 0 respectively; the
Rust source draws this order from HashMap keys(), which is unspecified
and randomized, so nothing ties the selected output to declaration
order. -/
theorem c3_first_output_depends_on_key_order :
    get_first_output [(("out"), 1), (("out2"), 0)] = some 1
    ∧ get_first_output [(("out2"), 0), (("out"), 1)] = some 0 :=
  ⟨rfl, rfl⟩

/-- Claim C4 (counterexample): two runs of ordinary characters separated
only by whitespace are emitted as one merged word, not two: the scanner
turns the text a-space-b into the single word ab. -/
theorem c4_counterexample :
    tokenize ("a b") = [("ab")] ∧ tokenize ("a b") ≠ [("a"), ("b")] :=
  ⟨by decide, by decide⟩

/-- Claim C4 (amended): the scanner skips a whitespace character without
touching its state: the character neither joins the accumulated word nor
flushes it, so words are flushed only by the four special characters, a
comment start, or the end of input, and runs separated only by whitespace
merge into one word. -/
theorem c4_whitespace_skipped_never_flushes (c : Char) (cs : List Char)
    (result : List String) (currentWord : String) (h : c.isWhitespace = true) :
    tokenizeGo (c :: cs) result currentWord false
      = tokenizeGo cs result currentWord false := by
  simp [tokenizeGo, h]

/-- Witness for the amended claim C4, at the space character inside the
text a-space-b. -/
theorem c4_whitespace_skipped_never_flushes_witness :
    tokenizeGo [(' '), ('b')] [] ("a") false = tokenizeGo [('b')] [] ("a") false :=
  c4_whitespace_skipped_never_flushes (' ') [('b')] [] ("a") rfl

/-- Claim C5 (counterexample): the synthesized-parameter letter given to a
nested-call argument counts every preceding argument, named IOBinding
arguments included: with the named binding q: q first, the first
positional nested call binds to b, not to a as claimed. -/
theorem c5_counterexample :
    buildInputs (fun ts inp => eval 5 [] ts inp) []
        [Token.IOBinding ("q") ("q"),
         Token.Expression [Token.Expression [Token.Chip ("NAND")]]] [] 97
      = some [(("q"), 0), (("b"), 255)]
    ∧ buildInputs (fun ts inp => eval 5 [] ts inp) []
        [Token.IOBinding ("q") ("q"),
         Token.Expression [Token.Expression [Token.Chip ("NAND")]]] [] 97
      ≠ some [(("q"), 0), (("a"), 255)] :=
  ⟨rfl, by decide⟩

/-- Claim C5 (amended): synthesized parameter names a, b, c are assigned
by overall argument position among all arguments, named bindings
included: a nested call in overall position zero binds to a, but after
one named binding the nested calls bind to b and then c, and through a
library chip D that reads input b the end-to-end evaluation confirms the
nested-call value lands on letter b. -/
theorem c5_letters_by_overall_position :
    buildInputs (fun ts inp => eval 5 [] ts inp) []
        [Token.Expression [Token.Expression [Token.Chip ("NAND")]]] [] 97
      = some [(("a"), 255)]
    ∧ buildInputs (fun ts inp => eval 5 [] ts inp) []
        [Token.IOBinding ("q") ("q"),
         Token.Expression [Token.Expression [Token.Chip ("NAND")]],
         Token.Expression [Token.Expression [Token.Chip ("NAND")]]] [] 97
      = some [(("q"), 0), (("b"), 255), (("c"), 255)]
    ∧ eval 10 [(("D"), [Token.Output ("out"),
          Token.Expression [Token.Chip ("NAND"),
            Token.IOBinding ("a") ("b"), Token.IOBinding ("b") ("b")]])]
        [Token.Output ("out"),
         Token.Expression [Token.Chip ("D"), Token.IOBinding ("q") ("q"),
           Token.Expression [Token.Expression [Token.Chip ("NAND")]]]] []
      = some [(("out"), 0)] :=
  ⟨rfl, rfl, rfl⟩

/-- Claim C6 (counterexample): an output-qualified reference to the
primitive gate naming an output it does not produce, NAND.bogus, is not a
fatal lookup error: the source reads the missing output with unwrap_or 0
in the NAND branch, so evaluation succeeds and yields 0. -/
theorem c6_counterexample :
    eval 5 [] [Token.Output ("o"),
        Token.Expression [Token.ChipOutputRef ("NAND") ("bogus")]] []
      = some [(("o"), 0)]
    ∧ eval 5 [] [Token.Output ("o"),
        Token.Expression [Token.ChipOutputRef ("NAND") ("bogus")]] []
      ≠ none :=
  ⟨rfl, by decide⟩

/-- Claim C6 (amended): an output-qualified reference naming an absent
output is a fatal lookup error only for non-primitive callees; for the
primitive gate NAND the missing output silently defaults to 0.  With
library chip C producing only the output named out, C.bogus aborts with
none while C.out succeeds and NAND.bogus yields 0. -/
theorem c6_qualified_miss_fatal_except_nand :
    eval 5 [] [Token.Output ("o"),
        Token.Expression [Token.ChipOutputRef ("NAND") ("bogus")]] []
      = some [(("o"), 0)]
    ∧ eval 10 [(("C"), [Token.Output ("out"),
          Token.Expression [Token.Chip ("NAND")]])]
        [Token.Output ("o"),
         Token.Expression [Token.ChipOutputRef ("C") ("bogus")]] []
      = none
    ∧ eval 10 [(("C"), [Token.Output ("out"),
          Token.Expression [Token.Chip ("NAND")]])]
        [Token.Output ("o"),
         Token.Expression [Token.ChipOutputRef ("C") ("out")]] []
      = some [(("o"), 255)] :=
  ⟨rfl, rfl, rfl⟩

/-- Claim C7 (counterexample): grouping the single bare name a, which
contains no colon, does not collapse to an IO passthrough: the source
unwraps the absent second split piece, a panic, so the grouping fails
with none (shown with the split itself producing only one piece). -/
theorem c7_counterexample :
    parse_expressions 5 [Token.Input ("a")] = none
    ∧ splitColon ("a") = [("a")] :=
  ⟨rfl, rfl⟩

/-- Claim C7 (amended): grouping a statement right-hand side that is a
single bare name succeeds exactly when the name contains a colon, in
which case it yields the IO pair of the first two split pieces; a bare
name without a colon makes the grouping fail. -/
theorem c7_single_bare_name_needs_colon (f : Nat) (x p0 p1 : String)
    (tl : List String) (h : splitColon x = p0 :: p1 :: tl) :
    parse_expressions (f + 1) [Token.Input x] = some (Token.IOBinding p0 p1) := by
  simp [parse_expressions, splitIOPair, h]

/-- Witness for the amended claim C7, at the bare name a:b. -/
theorem c7_single_bare_name_needs_colon_witness :
    parse_expressions 5 [Token.Input ("a:b")] = some (Token.IOBinding ("a") ("b")) :=
  c7_single_bare_name_needs_colon 4 ("a:b") ("a") ("b") [] rfl

/-- Claim C8: a signal absent from the active input mapping defaults to
bit 0 and never fails a lookup: the defaulted lookup itself yields 0,
a whole evaluation is unchanged by explicitly binding the absent signal
to 0, and the primitive gate NAND is likewise unchanged by explicitly
binding an absent a or b to 0. -/
theorem c8_missing_signal_defaults_zero :
    (∀ (inputs : SMap) (y : String), SMap.get? inputs y = none →
      SMap.getD inputs y 0 = 0)
    ∧ (∀ (f : Nat) (chips : List (String × List Token)) (code : List Token)
        (inputs : SMap) (y : String), SMap.get? inputs y = none →
      eval f chips code (SMap.insert inputs y 0) = eval f chips code inputs)
    ∧ (∀ m : SMap, SMap.get? m ("a") = none →
      NAND (SMap.insert m ("a") 0) = NAND m)
    ∧ (∀ m : SMap, SMap.get? m ("b") = none →
      NAND (SMap.insert m ("b") 0) = NAND m) := by
  refine ⟨?_, ?_, ?_, ?_⟩
  · intro inputs y h
    simp [SMap.getD, h]
  · intro f chips code inputs y h
    exact eval_congr f chips _ _ (SMap.agreesD_insert_zero inputs y h) code
  · intro m h
    simp only [NAND]
    rw [SMap.getD_insert_zero m ("a") ("a") h, SMap.getD_insert_zero m ("a") ("b") h]
  · intro m h
    simp only [NAND]
    rw [SMap.getD_insert_zero m ("b") ("a") h, SMap.getD_insert_zero m ("b") ("b") h]

/-- Witness for claim C8: the statement o = NAND(a: x) evaluated with the
empty input mapping equals its evaluation with x explicitly bound to 0,
and likewise for direct NAND invocations with a or b bound to 0. -/
theorem c8_missing_signal_defaults_zero_witness :
    SMap.getD [] ("x") 0 = 0
    ∧ eval 3 [] [Token.Output ("o"),
        Token.Expression [Token.Chip ("NAND"), Token.IOBinding ("a") ("x")]]
        (SMap.insert [] ("x") 0)
      = eval 3 [] [Token.Output ("o"),
        Token.Expression [Token.Chip ("NAND"), Token.IOBinding ("a") ("x")]] []
    ∧ NAND (SMap.insert [] ("a") 0) = NAND []
    ∧ NAND (SMap.insert [] ("b") 0) = NAND [] :=
  ⟨c8_missing_signal_defaults_zero.1 [] ("x") rfl,
   c8_missing_signal_defaults_zero.2.1 3 []
     [Token.Output ("o"),
      Token.Expression [Token.Chip ("NAND"), Token.IOBinding ("a") ("x")]]
     [] ("x") rfl,
   c8_missing_signal_defaults_zero.2.2.1 [] rfl,
   c8_missing_signal_defaults_zero.2.2.2 [] rfl⟩

/-- Claim C9: in the RHS state an open parenthesis is fatal unless the
immediately preceding emitted token is a bare name (an Input token): when
it is, that token is reclassified to a Chip before the LParen marker is
emitted and the depth counter increments; when the token sequence is
empty or ends in any other token kind, the lexer aborts with none. -/
theorem c9_lparen_requires_bare_name :
    (∀ (rest : List String) (result : List Token) (p : Int) (x : String),
      result.getLast? = some (Token.Input x) →
      lexGo (("(") :: rest) result true true p
        = lexGo rest (result.dropLast ++ [Token.Chip x, Token.LParen])
            true true (p + 1))
    ∧ (∀ (rest : List String) (result : List Token) (p : Int),
      (match result.getLast? with
       | some (Token.Input _) => False
       | _ => True) →
      lexGo (("(") :: rest) result true true p = none) := by
  constructor
  · intro rest result p x h
    simp only [lexGo]
    norm_num
    rw [h, if_neg (show ¬((("(") : String) = (")")) from by decide)]
  · intro rest result p h
    simp only [lexGo]
    norm_num
    rw [if_neg (show ¬((("(") : String) = (")")) from by decide)]
    cases hL : result.getLast? with
    | none => rfl
    | some last =>
      rw [hL] at h
      cases last with
      | Input a => exact absurd h (by simp)
      | Chip a => rfl
      | ChipOutputRef a b => rfl
      | IOBinding a b => rfl
      | Output a => rfl
      | True => rfl
      | False => rfl
      | Assign => rfl
      | LParen => rfl
      | RParen => rfl
      | Comma => rfl
      | Expression e => rfl

/-- Witness for claim C9: after o = the bare name x, an open parenthesis
reclassifies x to a chip reference at depth 1; directly after o = with
nothing emitted on the RHS yet, an open parenthesis aborts. -/
theorem c9_lparen_requires_bare_name_witness :
    lexGo [("(")] [Token.Output ("o"), Token.Assign, Token.Input ("x")] true true 0
      = lexGo [] [Token.Output ("o"), Token.Assign, Token.Chip ("x"), Token.LParen]
          true true 1
    ∧ lexGo [("(")] [Token.Output ("o"), Token.Assign] true true 0 = none :=
  ⟨c9_lparen_requires_bare_name.1 []
     [Token.Output ("o"), Token.Assign, Token.Input ("x")] 0 ("x") rfl,
   c9_lparen_requires_bare_name.2 [] [Token.Output ("o"), Token.Assign] 0 trivial⟩

/-- Claim C10: taking the first output of an empty result mapping is a
panic (none), and it is reached both when an unqualified call head
resolves to a library chip whose evaluation produces no outputs (chip E,
whose body is a lone output declaration, shown evaluating to the empty
mapping) and when a nested-call argument evaluates to no outputs (the
token list of a bare chip head with no statement around it, likewise
shown evaluating to the empty mapping). -/
theorem c10_empty_outputs_panic :
    get_first_output [] = none
    ∧ eval 9 [(("E"), [Token.Output ("x")])] [Token.Output ("x")] [] = some []
    ∧ eval 10 [(("E"), [Token.Output ("x")])]
        [Token.Output ("o"), Token.Expression [Token.Chip ("E")]] [] = none
    ∧ eval 9 [] [Token.Chip ("X")] [] = some []
    ∧ eval 10 [] [Token.Output ("o"),
        Token.Expression [Token.Chip ("NAND"), Token.Expression [Token.Chip ("X")]]] []
      = none :=
  ⟨rfl, rfl, rfl, rfl, rfl⟩
